import Mathlib

/-!
Verification development for the vanity-address generator in
`src/utils/services/vanityAddress.tsx` (`VanityAddressGenerator` plus the
inline `WORKER_CODE` worker class).

Modelling conventions:
* JS strings are lists of characters; `String.prototype.toLowerCase` on the
  ASCII base58 alphabet is `Char.toLower` mapped over the list.
* JS optional values are `Option`s; JS truthiness of a string is "present
  and nonempty", of a number "present and nonzero".
* Counters are `Nat`; user-supplied numeric config fields (`threads`,
  `maxAttempts`) are `Option Int` so that negative inputs stay representable.
* `Date.now()` readings are `Nat` parameters supplied with each event.
* `navigator.hardwareConcurrency` is an explicit `hw : Nat` parameter
  (`0` plays the role of `undefined`, both being falsy in JS).
* The unbounded `while (true)` worker loop runs on explicit fuel counting
  outer batch iterations; running out of fuel is a separate `outOfFuel`
  result, distinct from every genuine exit of the source loop.
-/

namespace Vanity

/-- JS string, modelled as a list of characters. -/
abbrev JStr := List Char

/-- JS truthiness of an optional string: `undefined` and the empty string
are falsy. -/
def truthy : Option JStr → Bool
  | none => false
  | some s => !s.isEmpty

/-- JS truthiness of an optional number: `undefined` and `0` are falsy. -/
def truthyInt : Option Int → Bool
  | none => false
  | some n => n != 0

/-- Configuration interface `VanityConfig` from the source.  The source
field `prefix` is called `prefx` here because `prefix` is reserved in
Lean; every other field keeps its source name. -/
structure VanityConfig where
  prefx : Option JStr
  suffix : Option JStr
  caseInsensitive : Bool
  maxAttempts : Option Int := none
  threads : Option Int := none
  debug : Bool := false
deriving DecidableEq, Repr

/-- Membership in the character class of the source regex
`/^[1-9A-HJ-NP-Za-km-z]+$/` (restricted base58 alphabet). -/
def base58Char (c : Char) : Bool :=
  ('1' ≤ c && c ≤ '9') || ('A' ≤ c && c ≤ 'H') || ('J' ≤ c && c ≤ 'N') ||
  ('P' ≤ c && c ≤ 'Z') || ('a' ≤ c && c ≤ 'k') || ('m' ≤ c && c ≤ 'z')

/-- Result of `base58Regex.test s`: the string is nonempty and every
character lies in the restricted base58 class. -/
def base58Test (s : JStr) : Bool := !s.isEmpty && s.all base58Char

/-- Value of `navigator.hardwareConcurrency || 4` for a given
`hardwareConcurrency` reading `hw` (`0` modelling `undefined`). -/
def maxThreadsOf (hw : Nat) : Nat := if hw = 0 then 4 else hw

/-- Method `VanityAddressGenerator.validateConfig`: the `console.warn` on
combined pattern length `> 10` does not affect the result and is omitted;
each `throw new Error(...)` becomes an `Except.error` carrying the source
message text. -/
def validateConfig (hw : Nat) (config : VanityConfig) : Except String Unit :=
  if !truthy config.prefx && !truthy config.suffix then
    .error "At least one pattern must be specified"
  else if truthy config.prefx && !base58Test (config.prefx.getD []) then
    .error "Prefix contains invalid characters for base58"
  else if truthy config.suffix && !base58Test (config.suffix.getD []) then
    .error "Suffix contains invalid characters for base58"
  else if truthyInt config.threads &&
      (decide (config.threads.getD 0 < 1) ||
       decide ((maxThreadsOf hw : Int) * 2 < config.threads.getD 0)) then
    .error "Thread count must be between 1 and maxThreads * 2"
  else
    .ok ()

/-- Constructor of `VanityAddressGenerator`: validate, then store the
config with the thread default
`config.threads || navigator.hardwareConcurrency || 4` applied. -/
def mkGenerator (hw : Nat) (config : VanityConfig) :
    Except String VanityConfig :=
  match validateConfig hw config with
  | .error e => .error e
  | .ok _ =>
    .ok { config with
      threads := some (if truthyInt config.threads then config.threads.getD 0
                       else (maxThreadsOf hw : Int)) }

/-- Lower-casing of a JS string (ASCII case fold, which is what
`toLowerCase` performs on the base58 alphabet). -/
def lowerStr (s : JStr) : JStr := s.map Char.toLower

/-- Method `VanityWorker.matchesPattern` from `WORKER_CODE`.  JS
`address.startsWith(p)` is `p.isPrefixOf address` and `address.endsWith(q)`
is `q.isSuffixOf address`; the short-circuit `!prefix ||` guards are kept
as the leading `!truthy` disjuncts. -/
def matchesPattern (config : VanityConfig) (address : JStr) : Bool :=
  let targetAddress :=
    if config.caseInsensitive then lowerStr address else address
  let targetPre :=
    if config.caseInsensitive && truthy config.prefx
    then lowerStr (config.prefx.getD []) else config.prefx.getD []
  let targetSuf :=
    if config.caseInsensitive && truthy config.suffix
    then lowerStr (config.suffix.getD []) else config.suffix.getD []
  let prefixMatch := !truthy config.prefx || targetPre.isPrefixOf targetAddress
  let suffixMatch := !truthy config.suffix || targetSuf.isSuffixOf targetAddress
  prefixMatch && suffixMatch

/-- A generated keypair: the base58 text of its public key together with
the secret key material (`keypair.secretKey`), modelled as an opaque
numeric tag. -/
structure Keypair where
  address : JStr
  secretKey : Nat
deriving DecidableEq, Repr

/-- Field `this.reportInterval` set in the `VanityWorker` constructor. -/
def reportInterval : Nat := 10000

/-- Messages a worker posts to the coordinator (interface `WorkerMessage`):
a progress delta or a success report. -/
inductive WMsg where
  | progress (attempts : Nat)
  | success (address : JStr) (privateKey : Nat) (attempts : Nat)
deriving DecidableEq, Repr

/-- Inner loop `for (let i = 0; i < this.reportInterval; i++)` of
`VanityWorker.search`: starting at loop counter `i` with `remaining`
iterations left, return the first loop counter whose candidate (drawn at
global index `attempts + i` from the candidate stream `gen`) matches. -/
def findHitFrom (config : VanityConfig) (gen : Nat → Keypair)
    (attempts : Nat) : Nat → Nat → Option Nat
  | _, 0 => none
  | i, r + 1 =>
    if matchesPattern config (gen (attempts + i)).address then some i
    else findHitFrom config gen attempts (i + 1) r

/-- One full scan of a batch of `count` candidates. -/
def findHit (config : VanityConfig) (gen : Nat → Keypair)
    (attempts count : Nat) : Option Nat :=
  findHitFrom config gen attempts 0 count

/-- How a run of `VanityWorker.search` ended, with every message it posted
(in order) and a final counter.
* `success`: posted one success message and returned; the counter is the
  number of candidates generated, `this.attempts + i + 1`.
* `exhausted`: threw `Maximum attempts reached`; the `WORKER_CODE`
  `onmessage` handler catches that error, logs it and calls
  `self.close()`, so no further message of any kind is posted and no
  error event reaches the coordinator.
* `outOfFuel`: the loop was still running when the fuel ran out (an
  artefact of the embedding; the source loop is unbounded). -/
inductive RunResult where
  | success (msgs : List WMsg) (generated : Nat)
  | exhausted (msgs : List WMsg) (finalAttempts : Nat)
  | outOfFuel (msgs : List WMsg) (attempts : Nat)
deriving DecidableEq, Repr

/-- Method `VanityWorker.search`: `attempts` is the field `this.attempts`
(always a multiple of the batch size), `msgs` accumulates the posted
messages, `fuel` bounds the number of outer `while (true)` iterations.
On a hit the success message carries `this.attempts + i + 1`; otherwise,
after a full batch, `this.attempts` grows by `reportInterval`, one
progress delta is posted, and the `maxAttempts` ceiling is tested (a
truthiness-guarded `>=` comparison, JS `this.attempts >= maxAttempts`). -/
def searchLoop (config : VanityConfig) (gen : Nat → Keypair) :
    Nat → Nat → List WMsg → RunResult
  | 0, attempts, msgs => .outOfFuel msgs attempts
  | fuel + 1, attempts, msgs =>
    match findHit config gen attempts reportInterval with
    | some i =>
      .success
        (msgs ++ [.success (gen (attempts + i)).address
          (gen (attempts + i)).secretKey (attempts + i + 1)])
        (attempts + i + 1)
    | none =>
      if truthyInt config.maxAttempts &&
          decide (config.maxAttempts.getD 0 ≤
            ((attempts + reportInterval : Nat) : Int)) then
        .exhausted (msgs ++ [.progress reportInterval])
          (attempts + reportInterval)
      else
        searchLoop config gen fuel (attempts + reportInterval)
          (msgs ++ [.progress reportInterval])

/-- Full run of a freshly constructed `VanityWorker` (attempts start at
`0`, no messages posted yet). -/
def workerRun (config : VanityConfig) (gen : Nat → Keypair) (fuel : Nat) :
    RunResult :=
  searchLoop config gen fuel 0 []

/-- Sum of the progress deltas contained in a message list. -/
def deltasSum : List WMsg → Nat
  | [] => 0
  | .progress a :: rest => a + deltasSum rest
  | .success _ _ _ :: rest => deltasSum rest

/-- Value resolved by `generate()` on success. -/
structure SearchResult where
  publicKey : JStr
  privateKey : Nat
  attempts : Nat
  duration : Nat
deriving DecidableEq, Repr

/-- State of the promise returned by `generate()`.  A JS promise settles
at most once; later `resolve`/`reject` calls are no-ops, which
`settleResolve`/`settleReject` reproduce. -/
inductive PromiseState where
  | pending
  | resolved (r : SearchResult)
  | rejected (err : String)
deriving DecidableEq, Repr

/-- First `resolve` wins; a later call changes nothing. -/
def settleResolve (p : PromiseState) (r : SearchResult) : PromiseState :=
  match p with
  | .pending => .resolved r
  | _ => p

/-- First `reject` wins; a later call changes nothing. -/
def settleReject (p : PromiseState) (e : String) : PromiseState :=
  match p with
  | .pending => .rejected e
  | _ => p

/-- Coordinator-side state of one `generate()` session: the mutable fields
of `VanityAddressGenerator` plus the closure variables of `generate()`.
`terminated` records which workers have been passed to
`worker.terminate()`; `notifications` records the
`(attempts, rate, elapsed)` triples delivered to a registered progress
callback. -/
structure CoordState where
  totalAttempts : Nat
  startTime : Nat
  lastProgressUpdate : Nat
  isRunning : Bool
  workers : List Nat
  terminated : List Nat
  notifications : List (Nat × Nat × Nat)
  promise : PromiseState
deriving DecidableEq, Repr

/-- Method `VanityAddressGenerator.stopWorkers`: clear `isRunning`, call
`terminate()` on every live worker, empty the worker list. -/
def stopWorkers (s : CoordState) : CoordState :=
  { s with isRunning := false, workers := [],
           terminated := s.terminated ++ s.workers }

/-- Closure constant `progressInterval = 1000` in `generate()`. -/
def progressInterval : Nat := 1000

/-- Rate figure `Math.floor(totalAttempts / (elapsed / 1000))`.  The
source computes this with floating-point division; the integer
approximation below is only a stand-in and no theorem in this file
depends on its value. -/
def rateOf (totalAttempts elapsed : Nat) : Nat :=
  if elapsed = 0 then 0 else totalAttempts * 1000 / elapsed

/-- Closure `onProgress` inside `generate()`: bail out when not running,
always add the delta to `totalAttempts`, and deliver a throttled
notification only when at least `progressInterval` ms have passed since
the previous one. -/
def coordOnProgress (s : CoordState) (attempts now : Nat) : CoordState :=
  if !s.isRunning then s
  else
    let s1 := { s with totalAttempts := s.totalAttempts + attempts }
    if progressInterval ≤ now - s1.lastProgressUpdate then
      let elapsed := now - s1.startTime
      { s1 with
        notifications := s1.notifications ++
          [(s1.totalAttempts, rateOf s1.totalAttempts elapsed, elapsed)],
        lastProgressUpdate := now }
    else s1

/-- Handler `worker.onmessage` in `generate()`: ignore everything when not
running; feed progress deltas to `onProgress`; on the first success,
stop all workers and resolve with the current `totalAttempts` (the
`attempts` field of the success message itself is never read). -/
def coordOnMessage (s : CoordState) (m : WMsg) (now : Nat) : CoordState :=
  if !s.isRunning then s
  else
    match m with
    | .progress attempts => coordOnProgress s attempts now
    | .success address privateKey _attempts =>
      let s1 := stopWorkers s
      let r : SearchResult :=
        ⟨address, privateKey, s.totalAttempts, now - s.startTime⟩
      { s1 with promise := settleResolve s1.promise r }

/-- Handler `worker.onerror` in `generate()` (no `isRunning` guard in the
source): stop all workers and reject.  It fires only for uncaught worker
errors; the `WORKER_CODE` `onmessage` handler catches every error thrown
by `search()` itself, so a worker run never produces this event. -/
def coordOnError (s : CoordState) (err : String) : CoordState :=
  let s1 := stopWorkers s
  { s1 with promise := settleReject s1.promise err }

/-- Processing of a sequence of timestamped worker messages by the
coordinator. -/
def coordRun (s : CoordState) (events : List (WMsg × Nat)) : CoordState :=
  events.foldl (fun st e => coordOnMessage st e.1 e.2) s

/-- State set up at the top of `generate()`: counters reset, `isRunning`
raised, `threadCount` workers spawned, promise pending. -/
def initCoord (startTime threadCount : Nat) : CoordState :=
  { totalAttempts := 0, startTime := startTime,
    lastProgressUpdate := startTime, isRunning := true,
    workers := List.range threadCount, terminated := [],
    notifications := [], promise := .pending }

/-- Outcome of the spec's Worker Unit state machine. -/
inductive SpecRunResult where
  | success (msgs : List WMsg) (generated : Nat)
  | cancelled (msgs : List WMsg) (generated : Nat)
  | exhausted (msgs : List WMsg) (generated : Nat)
  | outOfFuel (msgs : List WMsg) (generated : Nat)
deriving DecidableEq, Repr

/-- Modelled from the spec: the Worker Unit loop of spec section 4.3 with
the per-candidate cancellation check the spec requires ("Before
generating each new candidate, check an external cancellation
flag/signal; if set, transition to `Cancelled` and stop immediately
without emitting further messages").  The source `WORKER_CODE` contains
no such check and takes no cancellation input; this definition follows
the spec's words so that the two can be compared.  `cancelSignal j` is
the state of the external flag observed just before candidate `j` would
be generated; `j` counts candidates generated so far; fuel is counted
per candidate. -/
def specSearch (config : VanityConfig) (gen : Nat → Keypair)
    (cancelSignal : Nat → Bool) : Nat → Nat → List WMsg → SpecRunResult
  | 0, j, msgs => .outOfFuel msgs j
  | fuel + 1, j, msgs =>
    if cancelSignal j then .cancelled msgs j
    else
      let kp := gen j
      if matchesPattern config kp.address then
        .success (msgs ++ [.success kp.address kp.secretKey (j + 1)]) (j + 1)
      else
        let j' := j + 1
        if j' % reportInterval = 0 then
          let msgs' := msgs ++ [.progress reportInterval]
          if truthyInt config.maxAttempts &&
              decide (config.maxAttempts.getD 0 ≤ (j' : Int)) then
            .exhausted msgs' j'
          else specSearch config gen cancelSignal fuel j' msgs'
        else specSearch config gen cancelSignal fuel j' msgs

/-- Case fold applied by the matcher when `caseInsensitive` is set. -/
def caseFold (config : VanityConfig) (s : JStr) : JStr :=
  if config.caseInsensitive then lowerStr s else s

/-! ### Concrete instances used in witnesses and counterexamples -/

/-- Scenario config of the spec: `maxAttemptsPerWorker = 1000`,
`workerCount = 2`, pattern `z…` improbable for the candidate stream
used with it. -/
def cfgScenario : VanityConfig :=
  { prefx := some ['z'], suffix := none, caseInsensitive := false,
    maxAttempts := some 1000, threads := some 2, debug := false }

/-- Candidate stream that constantly produces the address `1`, which can
never match a `z` prefix. -/
def genConst : Nat → Keypair := fun _ => ⟨['1'], 0⟩

/-- Scenario config of the spec: `prefix = "Ab"`, `caseInsensitive`,
`workerCount = 4`. -/
def cfgAb : VanityConfig :=
  { prefx := some ['A', 'b'], suffix := none, caseInsensitive := true,
    maxAttempts := none, threads := some 4, debug := false }

/-- Config with `threads = 0`, the value the claim about worker-count
validation is tested on. -/
def cfgZeroThreads : VanityConfig :=
  { prefx := some ['a', 'b'], suffix := none, caseInsensitive := false,
    maxAttempts := none, threads := some 0, debug := false }

/-- Scenario config of the spec: `prefix = "0abc"` contains the
disallowed character `0`. -/
def cfgBadPrefix : VanityConfig :=
  { prefx := some ['0', 'a', 'b', 'c'], suffix := none,
    caseInsensitive := false, maxAttempts := none, threads := none,
    debug := false }

/-- Unlimited-search config with pattern `z…`. -/
def cfgHit : VanityConfig :=
  { prefx := some ['z'], suffix := none, caseInsensitive := false,
    maxAttempts := none, threads := some 1, debug := false }

/-- Candidate stream whose fourth candidate (index 3) matches a `z`
prefix. -/
def genHitK : Nat → Keypair :=
  fun n => if n == 3 then ⟨['z', 'q'], 42⟩ else ⟨['1'], 0⟩

/-- Config with a ceiling of 15000 attempts, deliberately not a multiple
of the batch size. -/
def cfg15 : VanityConfig :=
  { prefx := some ['z'], suffix := none, caseInsensitive := false,
    maxAttempts := some 15000, threads := some 1, debug := false }

/-! ### Helper lemmas about the worker loop -/

theorem deltasSum_append (l1 l2 : List WMsg) :
    deltasSum (l1 ++ l2) = deltasSum l1 + deltasSum l2 := by
  induction l1 with
  | nil => simp [deltasSum]
  | cons x rest ih => cases x <;> simp [deltasSum, ih, Nat.add_assoc]

theorem findHitFrom_eq_none (config : VanityConfig) (gen : Nat → Keypair)
    (attempts : Nat) :
    ∀ (r i : Nat),
      (∀ j, j < r →
        matchesPattern config (gen (attempts + i + j)).address = false) →
      findHitFrom config gen attempts i r = none := by
  intro r
  induction r with
  | zero => intro i _; rfl
  | succ r ih =>
    intro i h
    have h0 := h 0 (Nat.succ_pos r)
    rw [Nat.add_zero] at h0
    simp only [findHitFrom, h0]
    simp only [Bool.false_eq_true, if_false]
    apply ih
    intro j hj
    have := h (j + 1) (by omega)
    rw [show attempts + i + (j + 1) = attempts + (i + 1) + j by omega] at this
    exact this

theorem findHitFrom_some (config : VanityConfig) (gen : Nat → Keypair)
    (attempts : Nat) :
    ∀ (r i k : Nat), findHitFrom config gen attempts i r = some k →
      i ≤ k ∧ k < i + r ∧
      matchesPattern config (gen (attempts + k)).address = true := by
  intro r
  induction r with
  | zero => intro i k h; simp [findHitFrom] at h
  | succ r ih =>
    intro i k h
    simp only [findHitFrom] at h
    by_cases hc : matchesPattern config (gen (attempts + i)).address = true
    · rw [if_pos hc] at h
      obtain rfl : i = k := by injection h
      exact ⟨Nat.le_refl _, by omega, hc⟩
    · rw [if_neg hc] at h
      obtain ⟨h1, h2, h3⟩ := ih (i + 1) k h
      exact ⟨by omega, by omega, h3⟩

theorem findHit_eq_none (config : VanityConfig) (gen : Nat → Keypair)
    (attempts count : Nat)
    (h : ∀ j, j < count →
      matchesPattern config (gen (attempts + j)).address = false) :
    findHit config gen attempts count = none := by
  apply findHitFrom_eq_none
  intro j hj
  rw [Nat.add_zero]
  exact h j hj

theorem findHit_some (config : VanityConfig) (gen : Nat → Keypair)
    (attempts count k : Nat)
    (h : findHit config gen attempts count = some k) :
    k < count ∧ matchesPattern config (gen (attempts + k)).address = true := by
  obtain ⟨_, h2, h3⟩ := findHitFrom_some config gen attempts count 0 k h
  exact ⟨by omega, h3⟩

theorem ceilCond_true {m attempts' : Nat} (hm1 : 1 ≤ m)
    (hle : m ≤ attempts') :
    (truthyInt (some ((m : Nat) : Int)) &&
      decide ((some ((m : Nat) : Int)).getD 0 ≤ ((attempts' : Nat) : Int)))
      = true := by
  simp only [truthyInt, Option.getD_some, Bool.and_eq_true, bne_iff_ne,
    decide_eq_true_eq]
  constructor
  · exact Int.natCast_ne_zero.mpr (by omega)
  · exact_mod_cast hle

theorem ceilCond_false {m attempts' : Nat} (hlt : attempts' < m) :
    (truthyInt (some ((m : Nat) : Int)) &&
      decide ((some ((m : Nat) : Int)).getD 0 ≤ ((attempts' : Nat) : Int)))
      = false := by
  simp only [truthyInt, Option.getD_some, Bool.and_eq_false_iff]
  right
  simp only [decide_eq_false_iff_not]
  intro hc
  exact absurd (by exact_mod_cast hc) (Nat.not_le.mpr hlt)

/-- Exhaustion unrolling: starting from a batch boundary with `k ≥ 1`
batches still to go before the ceiling fires, and with no matching
candidate in those batches, the loop posts exactly `k` more progress
deltas and then throws `Maximum attempts reached`. -/
theorem searchLoop_exhaust (config : VanityConfig) (gen : Nat → Keypair)
    (m : Nat) (hm : config.maxAttempts = some ((m : Nat) : Int))
    (hm1 : 1 ≤ m) :
    ∀ (k fuel attempts : Nat) (msgs : List WMsg),
      1 ≤ k → k ≤ fuel →
      m ≤ attempts + reportInterval * k →
      attempts + reportInterval * (k - 1) < m →
      (∀ j, attempts ≤ j → j < attempts + reportInterval * k →
        matchesPattern config (gen j).address = false) →
      searchLoop config gen fuel attempts msgs =
        .exhausted (msgs ++ List.replicate k (.progress reportInterval))
          (attempts + reportInterval * k) := by
  intro k
  induction k with
  | zero => intro fuel attempts msgs hk; omega
  | succ n ih =>
    intro fuel attempts msgs _ hfuel hub hlb hnomatch
    obtain ⟨f, rfl⟩ : ∃ f, fuel = f + 1 := ⟨fuel - 1, by omega⟩
    have hnone : findHit config gen attempts reportInterval = none := by
      apply findHit_eq_none
      intro j hj
      exact hnomatch (attempts + j) (by omega)
        (by have : 1 ≤ n + 1 := by omega
            have : reportInterval ≤ reportInterval * (n + 1) :=
              Nat.le_mul_of_pos_right _ (by omega)
            omega)
    simp only [searchLoop, hnone, hm]
    cases n with
    | zero =>
      rw [if_pos (ceilCond_true hm1
        (show m ≤ attempts + reportInterval by simpa using hub))]
      rfl
    | succ p =>
      have hlt : attempts + reportInterval < m := by
        have h1 : reportInterval * 1 ≤ reportInterval * (p + 1) :=
          Nat.mul_le_mul_left _ (by omega)
        simp only [Nat.succ_sub_one] at hlb
        omega
      rw [if_neg (by rw [ceilCond_false hlt]; simp)]
      have := ih f (attempts + reportInterval)
        (msgs ++ [WMsg.progress reportInterval]) (by omega) (by omega)
        (by have : attempts + reportInterval * (p + 1 + 1) =
              attempts + reportInterval + reportInterval * (p + 1) := by ring
            omega)
        (by simp only [Nat.succ_sub_one] at hlb ⊢
            have : attempts + reportInterval * (p + 1) =
              attempts + reportInterval + reportInterval * p := by ring
            omega)
        (by intro j hj1 hj2
            apply hnomatch j (by omega)
            have : attempts + reportInterval * (p + 1 + 1) =
              attempts + reportInterval + reportInterval * (p + 1) := by ring
            omega)
      have hlist : (msgs ++ [WMsg.progress reportInterval]) ++
          List.replicate (p + 1) (WMsg.progress reportInterval) =
          msgs ++ List.replicate (p + 1 + 1) (WMsg.progress reportInterval) := by
        rw [List.append_assoc, List.singleton_append, ← List.replicate_succ]
      have hnat : attempts + reportInterval + reportInterval * (p + 1) =
          attempts + reportInterval * (p + 1 + 1) := by ring
      rw [this, hlist, hnat]

/-- A successful run generates between one and `reportInterval` more
candidates than the total its own progress deltas account for: the hit
inside the last, unfinished batch is never covered by a delta. -/
theorem searchLoop_success_bounds (config : VanityConfig)
    (gen : Nat → Keypair) :
    ∀ (fuel attempts : Nat) (msgs0 msgs : List WMsg) (g : Nat),
      searchLoop config gen fuel attempts msgs0 = .success msgs g →
      deltasSum msgs0 = attempts →
      deltasSum msgs < g ∧ g ≤ deltasSum msgs + reportInterval := by
  intro fuel
  induction fuel with
  | zero => intro attempts msgs0 msgs g h; simp [searchLoop] at h
  | succ fuel ih =>
    intro attempts msgs0 msgs g h hinv
    simp only [searchLoop] at h
    split at h
    · rename_i i heq
      obtain ⟨hi, _⟩ := findHit_some config gen attempts reportInterval i heq
      injection h with h1 h2
      rw [← h1, deltasSum_append, ← h2]
      simp only [deltasSum]
      omega
    · split at h
      · cases h
      · exact ih (attempts + reportInterval)
          (msgs0 ++ [WMsg.progress reportInterval]) msgs g h
          (by rw [deltasSum_append, hinv]; simp [deltasSum])

/-- Every success message a run posts carries an address that satisfies
the pattern matcher (the address is posted exactly as generated, without
case folding). -/
theorem searchLoop_success_msgs (config : VanityConfig)
    (gen : Nat → Keypair) :
    ∀ (fuel attempts : Nat) (msgs0 msgs : List WMsg) (g : Nat),
      searchLoop config gen fuel attempts msgs0 = .success msgs g →
      (∀ a k n, WMsg.success a k n ∈ msgs0 →
        matchesPattern config a = true) →
      ∀ a k n, WMsg.success a k n ∈ msgs →
        matchesPattern config a = true := by
  intro fuel
  induction fuel with
  | zero => intro attempts msgs0 msgs g h; simp [searchLoop] at h
  | succ fuel ih =>
    intro attempts msgs0 msgs g h hinv
    simp only [searchLoop] at h
    split at h
    · rename_i i heq
      obtain ⟨_, hmatch⟩ := findHit_some config gen attempts reportInterval i heq
      injection h with h1 h2
      intro a k n hmem
      rw [← h1] at hmem
      rcases List.mem_append.mp hmem with hl | hr
      · exact hinv a k n hl
      · simp only [List.mem_singleton] at hr
        injection hr with e1 e2 e3
        rw [e1]
        exact hmatch
    · split at h
      · cases h
      · apply ih (attempts + reportInterval)
          (msgs0 ++ [WMsg.progress reportInterval]) msgs g h
        intro a k n hmem
        rcases List.mem_append.mp hmem with hl | hr
        · exact hinv a k n hl
        · simp at hr

/-- An exhausted run posts progress deltas only: the throw on reaching the
ceiling is caught inside the worker and posts nothing. -/
theorem searchLoop_exhausted_msgs (config : VanityConfig)
    (gen : Nat → Keypair) :
    ∀ (fuel attempts : Nat) (msgs0 msgs : List WMsg) (fa : Nat),
      searchLoop config gen fuel attempts msgs0 = .exhausted msgs fa →
      (∀ x ∈ msgs0, ∃ d, x = WMsg.progress d) →
      ∀ x ∈ msgs, ∃ d, x = WMsg.progress d := by
  intro fuel
  induction fuel with
  | zero => intro attempts msgs0 msgs fa h; simp [searchLoop] at h
  | succ fuel ih =>
    intro attempts msgs0 msgs fa h hinv
    simp only [searchLoop] at h
    split at h
    · cases h
    · split at h
      · injection h with h1 h2
        intro x hx
        rw [← h1] at hx
        rcases List.mem_append.mp hx with hl | hr
        · exact hinv x hl
        · exact ⟨reportInterval, by simpa using hr⟩
      · apply ih (attempts + reportInterval)
          (msgs0 ++ [WMsg.progress reportInterval]) msgs fa h
        intro x hx
        rcases List.mem_append.mp hx with hl | hr
        · exact hinv x hl
        · exact ⟨reportInterval, by simpa using hr⟩

/-! ### Helper lemmas about the coordinator -/

theorem coordOnMessage_not_running (s : CoordState) (m : WMsg) (now : Nat)
    (h : s.isRunning = false) : coordOnMessage s m now = s := by
  simp [coordOnMessage, h]

theorem coordRun_not_running (s : CoordState)
    (events : List (WMsg × Nat)) (h : s.isRunning = false) :
    coordRun s events = s := by
  induction events with
  | nil => rfl
  | cons e rest ih =>
    show coordRun (coordOnMessage s e.1 e.2) rest = s
    rw [coordOnMessage_not_running s e.1 e.2 h, ih]

theorem coordRun_append (s : CoordState) (l1 l2 : List (WMsg × Nat)) :
    coordRun s (l1 ++ l2) = coordRun (coordRun s l1) l2 := by
  simp [coordRun, List.foldl_append]

theorem coordRun_cons (s : CoordState) (m : WMsg) (t : Nat)
    (rest : List (WMsg × Nat)) :
    coordRun s ((m, t) :: rest) = coordRun (coordOnMessage s m t) rest := rfl

theorem coordOnProgress_fields (s : CoordState) (a now : Nat) :
    (coordOnProgress s a now).isRunning = s.isRunning ∧
    (coordOnProgress s a now).promise = s.promise ∧
    (coordOnProgress s a now).startTime = s.startTime ∧
    (coordOnProgress s a now).workers = s.workers ∧
    (coordOnProgress s a now).terminated = s.terminated := by
  simp only [coordOnProgress]
  split
  · exact ⟨rfl, rfl, rfl, rfl, rfl⟩
  · split <;> exact ⟨rfl, rfl, rfl, rfl, rfl⟩

theorem coordOnProgress_totalAttempts (s : CoordState) (a now : Nat)
    (h : s.isRunning = true) :
    (coordOnProgress s a now).totalAttempts = s.totalAttempts + a := by
  simp only [coordOnProgress, h, Bool.not_true, Bool.false_eq_true, if_false]
  split <;> rfl

theorem coordOnProgress_throttled (s : CoordState) (a now : Nat)
    (h : now - s.lastProgressUpdate < progressInterval) :
    (coordOnProgress s a now).notifications = s.notifications := by
  simp only [coordOnProgress]
  split
  · rfl
  · rw [if_neg (by simpa using Nat.not_le.mpr h)]

theorem coordOnMessage_totalAttempts_mono (s : CoordState) (m : WMsg)
    (now : Nat) :
    s.totalAttempts ≤ (coordOnMessage s m now).totalAttempts := by
  simp only [coordOnMessage]
  split
  · exact Nat.le_refl _
  · match m with
    | .progress a =>
      rename_i hrun
      rw [coordOnProgress_totalAttempts s a now (by
        revert hrun; cases s.isRunning <;> simp)]
      omega
    | .success address privateKey n => exact Nat.le_refl _

theorem coordRun_totalAttempts_mono (s : CoordState)
    (events : List (WMsg × Nat)) :
    s.totalAttempts ≤ (coordRun s events).totalAttempts := by
  induction events generalizing s with
  | nil => exact Nat.le_refl _
  | cons e rest ih =>
    calc s.totalAttempts ≤ (coordOnMessage s e.1 e.2).totalAttempts :=
          coordOnMessage_totalAttempts_mono s e.1 e.2
      _ ≤ (coordRun (coordOnMessage s e.1 e.2) rest).totalAttempts :=
          ih (coordOnMessage s e.1 e.2)

theorem coordOnMessage_progress_fields (s : CoordState) (d td : Nat) :
    (coordOnMessage s (WMsg.progress d) td).isRunning = s.isRunning ∧
    (coordOnMessage s (WMsg.progress d) td).promise = s.promise ∧
    (coordOnMessage s (WMsg.progress d) td).startTime = s.startTime ∧
    (coordOnMessage s (WMsg.progress d) td).workers = s.workers ∧
    (coordOnMessage s (WMsg.progress d) td).terminated = s.terminated := by
  by_cases hr : s.isRunning = true
  · rw [show coordOnMessage s (WMsg.progress d) td = coordOnProgress s d td
      by simp [coordOnMessage, hr]]
    exact coordOnProgress_fields s d td
  · have hr' : s.isRunning = false := by
      revert hr; cases s.isRunning <;> simp
    rw [coordOnMessage_not_running s _ td hr']
    exact ⟨rfl, rfl, rfl, rfl, rfl⟩

/-- Progress deltas never change the control fields of the coordinator:
not the promise, not the worker lists, not the run flag, not the clock
origin. -/
theorem coordRun_progress_fields (events : List (WMsg × Nat)) :
    ∀ (s : CoordState),
      (∀ e ∈ events, ∃ d td, e = (WMsg.progress d, td)) →
      (coordRun s events).isRunning = s.isRunning ∧
      (coordRun s events).promise = s.promise ∧
      (coordRun s events).startTime = s.startTime ∧
      (coordRun s events).workers = s.workers ∧
      (coordRun s events).terminated = s.terminated := by
  induction events with
  | nil => intro s _; exact ⟨rfl, rfl, rfl, rfl, rfl⟩
  | cons e rest ih =>
    intro s hall
    obtain ⟨d, td, rfl⟩ := hall e (List.mem_cons_self e rest)
    obtain ⟨f1, f2, f3, f4, f5⟩ := ih (coordOnMessage s (WMsg.progress d) td)
      (fun x hx => hall x (List.mem_cons_of_mem _ hx))
    obtain ⟨g1, g2, g3, g4, g5⟩ := coordOnMessage_progress_fields s d td
    rw [coordRun_cons]
    exact ⟨by rw [f1, g1], by rw [f2, g2], by rw [f3, g3],
      by rw [f4, g4], by rw [f5, g5]⟩

/-- While running, every progress delta is added to `totalAttempts`:
processing a progress-only event list adds exactly the sum of its
deltas. -/
theorem coordRun_progress_totalAttempts (events : List (WMsg × Nat)) :
    ∀ (s : CoordState), s.isRunning = true →
      (∀ e ∈ events, ∃ d td, e = (WMsg.progress d, td)) →
      (coordRun s events).totalAttempts =
        s.totalAttempts + deltasSum (events.map Prod.fst) := by
  induction events with
  | nil => intro s _ _; simp [coordRun, deltasSum]
  | cons e rest ih =>
    intro s hrun hall
    obtain ⟨d, td, rfl⟩ := hall e (List.mem_cons_self e rest)
    have hstep : coordOnMessage s (WMsg.progress d) td =
        coordOnProgress s d td := by
      simp [coordOnMessage, hrun]
    have hrun' : (coordOnMessage s (WMsg.progress d) td).isRunning = true := by
      rw [hstep, (coordOnProgress_fields s d td).1, hrun]
    rw [coordRun_cons,
      ih (coordOnMessage s (WMsg.progress d) td) hrun'
        (fun x hx => hall x (List.mem_cons_of_mem _ hx)),
      hstep, coordOnProgress_totalAttempts s d td hrun]
    simp only [List.map_cons, deltasSum]
    omega

/-- Acting on the first success while running: all workers are stopped
and terminated, and the promise resolves carrying the aggregate attempt
count gathered so far (not the count inside the success message). -/
theorem coordOnMessage_success (s : CoordState) (a : JStr) (k n t : Nat)
    (hrun : s.isRunning = true) :
    coordOnMessage s (WMsg.success a k n) t =
      { stopWorkers s with
        promise :=
          settleResolve s.promise
            (SearchResult.mk a k s.totalAttempts (t - s.startTime)) } := by
  simp [coordOnMessage, hrun, stopWorkers]

/-! ### Helper lemmas about the pattern matcher -/

theorem isPrefixOf_take : ∀ (p l : JStr), p.isPrefixOf l = true →
    l.take p.length = p := by
  intro p
  induction p with
  | nil => intro l _; rfl
  | cons a p ih =>
    intro l h
    cases l with
    | nil => simp [List.isPrefixOf] at h
    | cons b l' =>
      simp only [List.isPrefixOf, Bool.and_eq_true, beq_iff_eq] at h
      obtain ⟨rfl, h2⟩ := h
      simp only [List.length_cons, List.take_succ_cons]
      rw [ih l' h2]

theorem map_take_eq : ∀ (l : JStr) (n : Nat) (f : Char → Char),
    (l.take n).map f = (l.map f).take n := by
  intro l
  induction l with
  | nil => intro n f; simp
  | cons a l ih => intro n f; cases n <;> simp [ih]

/-- Full characterisation of `VanityWorker.matchesPattern` for configs
whose optional patterns, when present, are nonempty (as configuration
validation guarantees): the matcher answers true exactly when the
case-folded address extends the case-folded prefix and suffix, an absent
pattern making its check trivially true. -/
theorem matchesPattern_iff (config : VanityConfig) (address : JStr)
    (hp : config.prefx ≠ some ([] : JStr))
    (hs : config.suffix ≠ some ([] : JStr)) :
    matchesPattern config address = true ↔
      ((∀ p, config.prefx = some p →
        (caseFold config p).isPrefixOf (caseFold config address) = true) ∧
       (∀ q, config.suffix = some q →
        (caseFold config q).isSuffixOf (caseFold config address) = true)) := by
  cases hpx : config.prefx with
  | none =>
    cases hsx : config.suffix with
    | none => simp [matchesPattern, truthy, hpx, hsx, caseFold]
    | some q =>
      have hq : q.isEmpty = false := by
        rw [hsx] at hs
        cases q
        · exact absurd rfl hs
        · rfl
      simp [matchesPattern, truthy, hpx, hsx, hq, caseFold]
  | some p =>
    have hp' : p.isEmpty = false := by
      rw [hpx] at hp
      cases p
      · exact absurd rfl hp
      · rfl
    cases hsx : config.suffix with
    | none => simp [matchesPattern, truthy, hpx, hsx, hp', caseFold]
    | some q =>
      have hq : q.isEmpty = false := by
        rw [hsx] at hs
        cases q
        · exact absurd rfl hs
        · rfl
      simp [matchesPattern, truthy, hpx, hsx, hp', hq, caseFold]

/-! ### Claim theorems -/

/-- Claim C2 (code bug, divergence exhibited): the class documentation
advertises a caller-invoked `stop()`, but the only stopping routine the
class has is the private `stopWorkers`, and it never settles the
`generate()` promise: it leaves the promise exactly as it was (so no
`Cancelled` rejection ever happens), clears `isRunning`, terminates and
empties the worker list, and is idempotent. -/
theorem C2_stopWorkers_behaviour (s : CoordState) :
    (stopWorkers s).promise = s.promise ∧
    (stopWorkers s).isRunning = false ∧
    (stopWorkers s).workers = [] ∧
    (stopWorkers s).terminated = s.terminated ++ s.workers ∧
    stopWorkers (stopWorkers s) = stopWorkers s := by
  refine ⟨rfl, rfl, rfl, rfl, ?_⟩
  simp [stopWorkers]

/-- Claim C3 (counterexample): the claim says a Worker Unit checks an
external cancellation flag before generating each candidate and, once
the flag is set, stops immediately and emits no further messages.  With
the flag raised before the very first candidate, the spec-modelled
worker does stop silently, but the source worker — whose loop takes no
cancellation input at all — still generates candidates and posts a
success message. -/
theorem C3_cex :
    specSearch cfgHit genHitK (fun _ => true) 1 0 [] =
      SpecRunResult.cancelled [] 0 ∧
    workerRun cfgHit genHitK 1 =
      RunResult.success [WMsg.success ['z', 'q'] 42 4] 4 :=
  ⟨rfl, rfl⟩

/-- Claim C3 (amended): the source worker loop performs no cancellation
check; cancellation is external — the Coordinator's `stopWorkers`
terminates every live worker — and any worker message delivered after
the Coordinator has stopped running is ignored without effect and
without error. -/
theorem C3_no_cancellation_check (s : CoordState) (m : WMsg) (now : Nat) :
    (s.isRunning = false → coordOnMessage s m now = s) ∧
    (stopWorkers s).isRunning = false ∧
    (stopWorkers s).workers = [] ∧
    (stopWorkers s).terminated = s.terminated ++ s.workers :=
  ⟨fun h => coordOnMessage_not_running s m now h, rfl, rfl, rfl⟩

/-- Witness for the amended claim C3 at a concrete stopped state. -/
theorem C3_no_cancellation_check_w :
    coordOnMessage (stopWorkers (initCoord 0 2)) (WMsg.success ['q'] 1 1) 999 =
      stopWorkers (initCoord 0 2) :=
  (C3_no_cancellation_check (stopWorkers (initCoord 0 2))
    (WMsg.success ['q'] 1 1) 999).1 rfl

/-- Claim C4 (counterexample): the claim says `workerCount = 0` yields a
configuration error before any worker is spawned.  In the source,
`threads = 0` is falsy, so the range check `config.threads && (...)` is
skipped: validation succeeds and the constructor silently replaces `0`
by the default worker count. -/
theorem C4_cex :
    validateConfig 4 cfgZeroThreads = Except.ok () ∧
    mkGenerator 4 cfgZeroThreads =
      Except.ok { cfgZeroThreads with threads := some 4 } :=
  ⟨rfl, rfl⟩

/-- Claim C4 (amended): a present nonzero `workerCount` outside
`[1, 2 × availableParallelism]` yields a configuration error during
validation, before any worker is spawned, while `workerCount = 0`
bypasses the range check entirely and is replaced by the default worker
count (`hardwareConcurrency`, or `4` when unavailable). -/
theorem C4_thread_validation (hw : Nat) (config : VanityConfig) (t : Int) :
    (config.threads = some t → t ≠ 0 →
      (t < 1 ∨ (maxThreadsOf hw : Int) * 2 < t) →
      ∃ e, validateConfig hw config = Except.error e) ∧
    (config.threads = some 0 →
      ∀ g, mkGenerator hw config = Except.ok g →
        g.threads = some ((maxThreadsOf hw : Nat) : Int)) := by
  constructor
  · intro hthreads ht hrange
    unfold validateConfig
    split
    · exact ⟨_, rfl⟩
    · split
      · exact ⟨_, rfl⟩
      · split
        · exact ⟨_, rfl⟩
        · split
          · exact ⟨_, rfl⟩
          · rename_i h4
            exfalso
            apply h4
            rw [hthreads]
            simp only [truthyInt, Option.getD_some, Bool.and_eq_true,
              bne_iff_ne, Bool.or_eq_true, decide_eq_true_eq]
            exact ⟨ht, hrange⟩
  · intro h0 g hg
    unfold mkGenerator at hg
    split at hg
    · cases hg
    · injection hg with hg'
      rw [← hg']
      simp [h0, truthyInt]

/-- Witness for the amended claim C4: `threads = 20` with
`hardwareConcurrency = 4` is rejected, and `threads = 0` is replaced by
the default `4`. -/
theorem C4_thread_validation_w :
    (∃ e, validateConfig 4 { cfgZeroThreads with threads := some 20 } =
      Except.error e) ∧
    ({ cfgZeroThreads with threads := some 4 } : VanityConfig).threads =
      some ((maxThreadsOf 4 : Nat) : Int) := by
  constructor
  · exact (C4_thread_validation 4 { cfgZeroThreads with threads := some 20 }
      20).1 rfl (by decide) (Or.inr (by decide))
  · exact (C4_thread_validation 4 cfgZeroThreads 0).2 rfl
      { cfgZeroThreads with threads := some 4 } rfl

/-- Claim C6: a configuration whose prefix or suffix contains a
character outside the restricted base58 alphabet, or which sets neither
pattern, always fails validation with a configuration error, so the
generator is never constructed and zero workers are spawned. -/
theorem C6_invalid_pattern (hw : Nat) (config : VanityConfig)
    (h : (∃ c ∈ config.prefx.getD [], base58Char c = false) ∨
         (∃ c ∈ config.suffix.getD [], base58Char c = false) ∨
         (truthy config.prefx = false ∧ truthy config.suffix = false)) :
    ∃ e, validateConfig hw config = Except.error e ∧
      mkGenerator hw config = Except.error e := by
  suffices hv : ∃ e, validateConfig hw config = Except.error e by
    obtain ⟨e, he⟩ := hv
    exact ⟨e, he, by simp [mkGenerator, he]⟩
  rcases h with ⟨c, hc, hcb⟩ | ⟨c, hc, hcb⟩ | ⟨hp0, hs0⟩
  · obtain ⟨s, hps, hcs⟩ : ∃ s, config.prefx = some s ∧ c ∈ s := by
      cases hpx : config.prefx with
      | none => rw [hpx] at hc; cases hc
      | some s =>
        rw [hpx] at hc
        exact ⟨s, rfl, by simpa using hc⟩
    have htr : truthy (some s) = true := by
      cases s with
      | nil => cases hcs
      | cons a s' => rfl
    have htest : base58Test s = false := by
      have hall : s.all base58Char = false :=
        List.all_eq_false.mpr ⟨c, hcs, by simp [hcb]⟩
      simp [base58Test, hall]
    exact ⟨"Prefix contains invalid characters for base58",
      by simp [validateConfig, htr, hps, htest]⟩
  · obtain ⟨s, hqs, hcs⟩ : ∃ s, config.suffix = some s ∧ c ∈ s := by
      cases hsx : config.suffix with
      | none => rw [hsx] at hc; cases hc
      | some s =>
        rw [hsx] at hc
        exact ⟨s, rfl, by simpa using hc⟩
    have htr : truthy (some s) = true := by
      cases s with
      | nil => cases hcs
      | cons a s' => rfl
    have htest : base58Test s = false := by
      have hall : s.all base58Char = false :=
        List.all_eq_false.mpr ⟨c, hcs, by simp [hcb]⟩
      simp [base58Test, hall]
    by_cases hb2 : (truthy config.prefx &&
        !base58Test (config.prefx.getD [])) = true
    · exact ⟨"Prefix contains invalid characters for base58",
        by simp [validateConfig, htr, hqs, hb2]⟩
    · exact ⟨"Suffix contains invalid characters for base58",
        by simp [validateConfig, htr, hqs, htest, hb2]⟩
  · exact ⟨"At least one pattern must be specified",
      by simp [validateConfig, hp0, hs0]⟩

/-- Witness for claim C6 at the spec's scenario `prefix = "0abc"`. -/
theorem C6_invalid_pattern_w :
    ∃ e, validateConfig 4 cfgBadPrefix = Except.error e ∧
      mkGenerator 4 cfgBadPrefix = Except.error e :=
  C6_invalid_pattern 4 cfgBadPrefix (Or.inl ⟨'0', by decide, by decide⟩)

/-- Claim C7: the aggregate `totalAttempts` is monotonically
non-decreasing under any sequence of events, and while the session is
running every received delta is added to it in full — even when the
notification is throttled away (no notification is emitted before the
interval elapses, yet the counter still advances by the delta). -/
theorem C7_totalAttempts (s : CoordState) :
    (∀ events, s.totalAttempts ≤ (coordRun s events).totalAttempts) ∧
    (∀ a now, s.isRunning = true →
      (coordOnProgress s a now).totalAttempts = s.totalAttempts + a ∧
      (now - s.lastProgressUpdate < progressInterval →
        (coordOnProgress s a now).notifications = s.notifications)) :=
  ⟨fun events => coordRun_totalAttempts_mono s events,
   fun a now h => ⟨coordOnProgress_totalAttempts s a now h,
     fun hthr => coordOnProgress_throttled s a now hthr⟩⟩

/-- Witness for claim C7: a `10000` delta received `500` ms into the
session advances the counter in full while emitting no notification. -/
theorem C7_totalAttempts_w :
    (coordOnProgress (initCoord 0 1) 10000 500).totalAttempts = 10000 ∧
    (coordOnProgress (initCoord 0 1) 10000 500).notifications = [] := by
  have h := (C7_totalAttempts (initCoord 0 1)).2 10000 500 rfl
  exact ⟨h.1, h.2 (by decide)⟩

/-- Claim C5: the pattern matcher answers true exactly when the
(case-folded, when `caseInsensitive` is set) address starts with the
configured prefix and ends with the configured suffix, an absent pattern
making its check trivially true; the address a success message reports
is the one generated, never case-folded, so with `prefix = "Ab"` and
`caseInsensitive` the first two characters of any matching address equal
`"ab"` after lower-casing. -/
theorem C5_matcher (config : VanityConfig)
    (hp : config.prefx ≠ some ([] : JStr))
    (hs : config.suffix ≠ some ([] : JStr)) :
    (∀ address, matchesPattern config address = true ↔
      ((∀ p, config.prefx = some p →
        (caseFold config p).isPrefixOf (caseFold config address) = true) ∧
       (∀ q, config.suffix = some q →
        (caseFold config q).isSuffixOf (caseFold config address) = true))) ∧
    (∀ gen fuel msgs g a k n,
      workerRun config gen fuel = RunResult.success msgs g →
      WMsg.success a k n ∈ msgs → matchesPattern config a = true) ∧
    (config.prefx = some ['A', 'b'] → config.caseInsensitive = true →
      ∀ address, matchesPattern config address = true →
        (address.take 2).map Char.toLower = ['a', 'b']) := by
  refine ⟨fun address => matchesPattern_iff config address hp hs, ?_, ?_⟩
  · intro gen fuel msgs g a k n hrun hmem
    exact searchLoop_success_msgs config gen fuel 0 [] msgs g hrun
      (fun a' k' n' h => absurd h (List.not_mem_nil _)) a k n hmem
  · intro hab hci address hmatch
    have hfold : ∀ s : JStr, caseFold config s = lowerStr s := by
      intro s; simp [caseFold, hci]
    have hpre := ((matchesPattern_iff config address hp hs).mp hmatch).1
      ['A', 'b'] hab
    rw [hfold, hfold] at hpre
    have htake := isPrefixOf_take _ _ hpre
    have hlow : lowerStr ['A', 'b'] = ['a', 'b'] := by decide
    rw [hlow] at htake
    calc (address.take 2).map Char.toLower
        = (address.map Char.toLower).take 2 := map_take_eq address 2 _
      _ = ['a', 'b'] := htake

/-- Witness for claim C5 on the concrete address `AbX` against the
scenario config `prefix = "Ab"`, `caseInsensitive = true`. -/
theorem C5_matcher_w :
    matchesPattern cfgAb ['A', 'b', 'X'] = true ∧
    (['A', 'b', 'X'].take 2).map Char.toLower = ['a', 'b'] := by
  have h := C5_matcher cfgAb (by decide) (by decide)
  have hm : matchesPattern cfgAb ['A', 'b', 'X'] = true := by decide
  exact ⟨hm, h.2.2 rfl rfl ['A', 'b', 'X'] hm⟩

/-- Claim C8: the first success received while running is authoritative:
processing any event sequence made of progress deltas, then a first
success, then arbitrary later messages, resolves the promise exactly
once with that first success (later messages — including further success
reports — are discarded silently by the `isRunning` guard), stops the
run, and terminates every spawned worker. -/
theorem C8_first_success (s : CoordState) (pre post : List (WMsg × Nat))
    (a : JStr) (k n t : Nat)
    (hrun : s.isRunning = true) (hpend : s.promise = PromiseState.pending)
    (hpre : ∀ e ∈ pre, ∃ d td, e = (WMsg.progress d, td)) :
    (coordRun s (pre ++ (WMsg.success a k n, t) :: post)).promise =
      PromiseState.resolved
        (SearchResult.mk a k (coordRun s pre).totalAttempts
          (t - s.startTime)) ∧
    (coordRun s (pre ++ (WMsg.success a k n, t) :: post)).isRunning =
      false ∧
    (coordRun s (pre ++ (WMsg.success a k n, t) :: post)).workers = [] ∧
    (coordRun s (pre ++ (WMsg.success a k n, t) :: post)).terminated =
      s.terminated ++ s.workers := by
  obtain ⟨f1, f2, f3, f4, f5⟩ := coordRun_progress_fields pre s hpre
  set mid := coordRun s pre with hmid
  have hrun' : mid.isRunning = true := by rw [f1, hrun]
  have hpend' : mid.promise = PromiseState.pending := by rw [f2, hpend]
  have hsucc := coordOnMessage_success mid a k n t hrun'
  have hsplit : coordRun s (pre ++ (WMsg.success a k n, t) :: post) =
      coordRun (coordOnMessage mid (WMsg.success a k n) t) post := by
    rw [coordRun_append, coordRun_cons]
  rw [hsplit, hsucc, coordRun_not_running _ post rfl]
  refine ⟨?_, rfl, rfl, ?_⟩
  · show settleResolve mid.promise
        (SearchResult.mk a k mid.totalAttempts (t - mid.startTime)) =
      PromiseState.resolved
        (SearchResult.mk a k mid.totalAttempts (t - s.startTime))
    rw [hpend', f3]
    rfl
  · show mid.terminated ++ mid.workers = s.terminated ++ s.workers
    rw [f4, f5]

/-- Witness for claim C8: one delta, a first success at `t = 1500`, and
a late second success that is discarded. -/
theorem C8_first_success_w :
    (coordRun (initCoord 0 2)
      [(WMsg.progress 10000, 100), (WMsg.success ['z', 'q'] 42 7, 1500),
       (WMsg.success ['x'] 7 5, 1600)]).promise =
      PromiseState.resolved (SearchResult.mk ['z', 'q'] 42 10000 1500) ∧
    (coordRun (initCoord 0 2)
      [(WMsg.progress 10000, 100), (WMsg.success ['z', 'q'] 42 7, 1500),
       (WMsg.success ['x'] 7 5, 1600)]).isRunning = false ∧
    (coordRun (initCoord 0 2)
      [(WMsg.progress 10000, 100), (WMsg.success ['z', 'q'] 42 7, 1500),
       (WMsg.success ['x'] 7 5, 1600)]).workers = [] ∧
    (coordRun (initCoord 0 2)
      [(WMsg.progress 10000, 100), (WMsg.success ['z', 'q'] 42 7, 1500),
       (WMsg.success ['x'] 7 5, 1600)]).terminated = [0, 1] := by
  have h := C8_first_success (initCoord 0 2) [(WMsg.progress 10000, 100)]
    [(WMsg.success ['x'] 7 5, 1600)] ['z', 'q'] 42 7 1500 rfl rfl
    (by
      intro e he
      rcases List.mem_cons.mp he with rfl | he2
      · exact ⟨10000, 100, rfl⟩
      · cases he2)
  exact ⟨h.1, h.2.1, h.2.2.1, h.2.2.2⟩

/-- Claim C10: the attempts figure resolved by `generate()` ignores the
attempts field inside the success message (the handler never reads it)
and equals exactly the sum of the progress deltas received before the
success; a successful worker generates between `1` and `reportInterval`
more candidates than its own deltas account for, so the resolved count
undercounts the winner's true candidate count by that amount. -/
theorem C10_attempts_undercount :
    (∀ (s : CoordState) (a : JStr) (k n n2 t : Nat),
      coordOnMessage s (WMsg.success a k n) t =
        coordOnMessage s (WMsg.success a k n2) t) ∧
    (∀ config gen fuel msgs g,
      workerRun config gen fuel = RunResult.success msgs g →
      deltasSum msgs < g ∧ g ≤ deltasSum msgs + reportInterval) ∧
    (∀ (startTime tc : Nat) (pre : List (WMsg × Nat)) (a : JStr)
        (k n t : Nat),
      (∀ e ∈ pre, ∃ d td, e = (WMsg.progress d, td)) →
      (coordRun (initCoord startTime tc)
        (pre ++ [(WMsg.success a k n, t)])).promise =
        PromiseState.resolved
          (SearchResult.mk a k (deltasSum (pre.map Prod.fst))
            (t - startTime))) := by
  refine ⟨fun s a k n n2 t => rfl, ?_, ?_⟩
  · intro config gen fuel msgs g h
    exact searchLoop_success_bounds config gen fuel 0 [] msgs g h rfl
  · intro startTime tc pre a k n t hpre
    obtain ⟨f1, f2, f3, f4, f5⟩ :=
      coordRun_progress_fields pre (initCoord startTime tc) hpre
    have hsum :=
      coordRun_progress_totalAttempts pre (initCoord startTime tc) rfl hpre
    set mid := coordRun (initCoord startTime tc) pre with hmid
    have hrun' : mid.isRunning = true := by rw [f1]; rfl
    have hsucc := coordOnMessage_success mid a k n t hrun'
    have hsplit : coordRun (initCoord startTime tc)
        (pre ++ [(WMsg.success a k n, t)]) =
        coordOnMessage mid (WMsg.success a k n) t := by
      rw [coordRun_append, coordRun_cons]
      rfl
    rw [hsplit, hsucc]
    have hpend' : mid.promise = PromiseState.pending := by rw [f2]; rfl
    have htot : mid.totalAttempts = deltasSum (pre.map Prod.fst) := by
      rw [hsum]
      simp [initCoord]
    have hst : mid.startTime = startTime := by rw [f3]; rfl
    show settleResolve mid.promise
        (SearchResult.mk a k mid.totalAttempts (t - mid.startTime)) = _
    rw [hpend', htot, hst]
    rfl

/-- Witness for claim C10: a worker that wins at the fourth candidate
reported no delta, so the resolved count is `0` while it generated `4`
candidates — an undercount of `4`, between `1` and the batch size. -/
theorem C10_attempts_undercount_w :
    workerRun cfgHit genHitK 1 =
      RunResult.success [WMsg.success ['z', 'q'] 42 4] 4 ∧
    deltasSum [WMsg.success ['z', 'q'] 42 4] < 4 ∧
    4 ≤ deltasSum [WMsg.success ['z', 'q'] 42 4] + reportInterval ∧
    (coordRun (initCoord 3 1) [(WMsg.success ['z', 'q'] 42 4, 50)]).promise =
      PromiseState.resolved (SearchResult.mk ['z', 'q'] 42 0 47) := by
  have hrun : workerRun cfgHit genHitK 1 =
      RunResult.success [WMsg.success ['z', 'q'] 42 4] 4 := rfl
  have h2 := C10_attempts_undercount.2.1 cfgHit genHitK 1 _ _ hrun
  have h3 := C10_attempts_undercount.2.2 3 1 [] ['z', 'q'] 42 4 50
    (fun e he => absurd he (List.not_mem_nil e))
  exact ⟨hrun, h2.1, h2.2, h3⟩

/-- Claim C1 (counterexample): in the spec's scenario —
`maxAttemptsPerWorker = 1000`, two workers, a pattern the candidate
stream never matches — every worker run ends `exhausted` having posted
only one progress delta, and after the coordinator has consumed all
messages both workers ever post, the promise is still pending: it never
settles, with a `SearchExhausted` rejection or anything else. -/
theorem C1_cex :
    workerRun cfgScenario genConst 1 =
      RunResult.exhausted [WMsg.progress reportInterval] reportInterval ∧
    workerRun cfgScenario genConst 99 =
      RunResult.exhausted [WMsg.progress reportInterval] reportInterval ∧
    (coordRun (initCoord 0 2)
      [(WMsg.progress 10000, 500), (WMsg.progress 10000, 600)]).promise =
      PromiseState.pending := by
  have hex : ∀ fuel, 1 ≤ fuel → workerRun cfgScenario genConst fuel =
      RunResult.exhausted [WMsg.progress reportInterval] reportInterval := by
    intro fuel hf
    have h := searchLoop_exhaust cfgScenario genConst 1000 rfl (by omega)
      1 fuel 0 [] (by omega) hf
      (by norm_num [reportInterval]) (by norm_num [reportInterval])
      (fun j _ _ => rfl)
    simpa using h
  exact ⟨hex 1 (by omega), hex 99 (by omega), by decide⟩

/-- Claim C1 (amended): when a worker reaches its `maxAttempts` ceiling
it throws; the error is caught inside the worker itself, which logs and
closes without posting anything, so an exhausted run's messages are
progress deltas only — and a coordinator fed nothing but progress deltas
keeps its promise pending forever: `generate()` never rejects with a
search-exhausted error, it simply never settles. -/
theorem C1_exhaustion_silent (config : VanityConfig) (gen : Nat → Keypair)
    (fuel fa : Nat) (msgs : List WMsg)
    (hrun : workerRun config gen fuel = RunResult.exhausted msgs fa) :
    (∀ x ∈ msgs, ∃ d, x = WMsg.progress d) ∧
    (∀ (s : CoordState) (events : List (WMsg × Nat)),
      s.promise = PromiseState.pending →
      (∀ e ∈ events, ∃ d td, e = (WMsg.progress d, td)) →
      (coordRun s events).promise = PromiseState.pending) := by
  constructor
  · exact searchLoop_exhausted_msgs config gen fuel 0 [] msgs fa hrun
      (fun x hx => absurd hx (List.not_mem_nil x))
  · intro s events hpend hall
    rw [(coordRun_progress_fields events s hall).2.1, hpend]

/-- Witness for the amended claim C1 at the concrete scenario. -/
theorem C1_exhaustion_silent_w :
    (∀ x ∈ [WMsg.progress reportInterval], ∃ d, x = WMsg.progress d) ∧
    (coordRun (initCoord 7 2)
      [(WMsg.progress 10000, 400), (WMsg.progress 10000, 450)]).promise =
      PromiseState.pending := by
  have hrun : workerRun cfgScenario genConst 1 =
      RunResult.exhausted [WMsg.progress reportInterval] reportInterval := by
    have h := searchLoop_exhaust cfgScenario genConst 1000 rfl (by omega)
      1 1 0 [] (by omega) (by omega)
      (by norm_num [reportInterval]) (by norm_num [reportInterval])
      (fun j _ _ => rfl)
    simpa using h
  have h := C1_exhaustion_silent cfgScenario genConst 1 reportInterval
    [WMsg.progress reportInterval] hrun
  refine ⟨h.1, h.2 (initCoord 7 2) _ rfl ?_⟩
  intro e he
  rcases List.mem_cons.mp he with rfl | he2
  · exact ⟨10000, 400, rfl⟩
  rcases List.mem_cons.mp he2 with rfl | he3
  · exact ⟨10000, 450, rfl⟩
  cases he3

/-- Claim C9: the worker tests its `maxAttempts` ceiling only at batch
boundaries, so with a ceiling of `m ≥ 1` and no matching candidate the
run stops exhausted after exactly `10000 * ⌈m / 10000⌉` candidates — the
least multiple of the batch size that reaches `m`, which overshoots a
non-multiple ceiling by up to `9999` attempts. -/
theorem C9_ceiling_batch_granularity (config : VanityConfig)
    (gen : Nat → Keypair) (m fuel : Nat)
    (hm : config.maxAttempts = some ((m : Nat) : Int)) (hm1 : 1 ≤ m)
    (hfuel : (m + 9999) / 10000 ≤ fuel)
    (hnm : ∀ j, j < 10000 * ((m + 9999) / 10000) →
      matchesPattern config (gen j).address = false) :
    workerRun config gen fuel =
      RunResult.exhausted
        (List.replicate ((m + 9999) / 10000) (WMsg.progress 10000))
        (10000 * ((m + 9999) / 10000)) ∧
    m ≤ 10000 * ((m + 9999) / 10000) ∧
    10000 * ((m + 9999) / 10000) ≤ m + 9999 ∧
    (∀ N, N % 10000 = 0 → m ≤ N → 10000 * ((m + 9999) / 10000) ≤ N) := by
  have hri : reportInterval = 10000 := rfl
  have h := searchLoop_exhaust config gen m hm hm1 ((m + 9999) / 10000)
    fuel 0 [] (by omega) hfuel
    (by rw [hri]; omega) (by rw [hri]; omega)
    (by
      intro j hj1 hj2
      apply hnm
      rw [hri] at hj2
      omega)
  refine ⟨by rw [hri] at h; simpa using h, by omega, by omega, ?_⟩
  intro N hmod hle
  omega

/-- Witness for claim C9 at the concrete non-multiple ceiling
`m = 15000`: the worker performs `20000` attempts, `5000` beyond its
configured ceiling. -/
theorem C9_ceiling_batch_granularity_w :
    workerRun cfg15 genConst 2 =
      RunResult.exhausted (List.replicate 2 (WMsg.progress 10000)) 20000 ∧
    15000 ≤ 20000 ∧ 20000 ≤ 15000 + 9999 := by
  have h := C9_ceiling_batch_granularity cfg15 genConst 15000 2 rfl
    (by omega) (by norm_num) (fun j _ => rfl)
  exact ⟨h.1, h.2.1, h.2.2.1⟩

end Vanity
